import Mathlib

/-!
Shallow embedding of `src/main/uart-echo-freertos.c`: a two-stage UART
echo/command pipeline. Bytes are modelled as `Nat`, buffers as `List Nat`
(the bytes before the terminating NUL where a C string is meant), the
relay queue as a FIFO `List (List Nat)`, and the GPIO output level as a
`Nat`. Side effects performed by a task iteration are recorded as an
ordered `List Action`, so ordering claims (echo before enqueue) are
statable.
-/

namespace UartEcho

/-- BUF_SIZE, the UART RX buffer size in bytes (`#define BUF_SIZE 1024`). -/
def BUF_SIZE : Nat := 1024

/-- UART_QUEUE_SIZE, the UART driver event-queue capacity (`#define UART_QUEUE_SIZE 20`). -/
def UART_QUEUE_SIZE : Nat := 20

/-- Capacity of the relay (command) queue: `xQueueCreate(5, sizeof(char *))`. -/
def COMMAND_QUEUE_CAPACITY : Nat := 5

/-- Byte value of the linefeed character. -/
def NL : Nat := 10

/-- Byte value of the carriage-return character. -/
def CR : Nat := 13

/-- The loop condition of the trim loop in `command_processor_task`:
a byte is trimmed when it is a linefeed or a carriage return. -/
def isTrimChar (c : Nat) : Bool := c == NL || c == CR

/-- Bytes of the token `"ON"`. -/
def strON : List Nat := [79, 78]

/-- Bytes of the token `"OFF"`. -/
def strOFF : List Nat := [79, 70, 70]

/-- The in-place trailing trim of `command_processor_task` (lines 155-156):
scan backward from the end of the string, overwriting trailing linefeed or
carriage-return bytes with NUL until a non-trim byte or the start of the
buffer is reached. On the string contents this drops the trailing run of
trim characters, modelled as `dropWhile` on the reversed byte list. -/
def trimTrailing (s : List Nat) : List Nat :=
  (s.reverse.dropWhile isTrimChar).reverse

/-- The maximal trailing run of trim characters of a string: the part the
trim loop removes. -/
def trailRun (s : List Nat) : List Nat :=
  (s.reverse.takeWhile isTrimChar).reverse

/-- Semantics of `strdup` on a raw byte buffer: the copy holds the bytes
up to (excluding) the first NUL byte. -/
def strdupBytes (data : List Nat) : List Nat :=
  data.takeWhile (fun c => c != 0)

/-- The command dispatch of `command_processor_task` on one entry: trim
trailing line endings, then compare against `"ON"` (set level 1) and
`"OFF"` (set level 0); any other text leaves the GPIO level unchanged. -/
def process_command (gpio : Nat) (cmd : List Nat) : Nat :=
  let t := trimTrailing cmd
  if t = strON then 1
  else if t = strOFF then 0
  else gpio

/-- State shared by the two tasks: the GPIO_CONTROL output level and the
contents of the relay queue (front of the list = front of the FIFO). -/
structure SysState where
  gpioLevel : Nat
  queue : List (List Nat)
  deriving DecidableEq, Repr

/-- The state in which the tasks start: `app_main` drives the pin to 0 and
creates the relay queue empty before spawning either task. -/
def initState : SysState := ⟨0, []⟩

/-- Externally visible side effects of one task iteration, in program
order. -/
inductive Action where
  | echo (bytes : List Nat)
  | enqueue (entry : List Nat)
  | freeEntry (entry : List Nat)
  | gpioSet (level : Nat)
  | logError
  | flushInput
  | resetEventQueue
  deriving DecidableEq, Repr

/-- Whether an action writes the GPIO output. -/
def Action.isGpioSet : Action → Bool
  | .gpioSet _ => true
  | _ => false

/-- Result of one event-handler iteration: the ordered side effects and
the successor state. -/
structure DataOutcome where
  actions : List Action
  state : SysState
  deriving DecidableEq, Repr

/-- The clamp applied to `event.size` in `uart_event_task` (line 88):
`if (rx_size >= BUF_SIZE) rx_size = BUF_SIZE - 1;`. -/
def clampRx (s : Nat) : Nat :=
  if BUF_SIZE ≤ s then BUF_SIZE - 1 else s

/-- The `UART_DATA` case of `uart_event_task` (lines 85-106). `evSize` is
`event.size`; `readBytes` is what `uart_read_bytes` returned (empty when
it returned zero or fewer bytes); `allocOk` is whether `strdup` succeeded.
If the event size is 0 the case breaks immediately; if nothing was read
nothing happens; otherwise the read bytes are echoed back verbatim, then a
NUL-truncated copy is enqueued onto the relay queue when there is room,
and freed (with an error log) when the queue is full; on allocation
failure only the error is logged and the echo still happened. -/
def handle_uart_data (s : SysState) (evSize : Nat) (readBytes : List Nat)
    (allocOk : Bool) : DataOutcome :=
  if evSize = 0 then ⟨[], s⟩
  else if readBytes.length = 0 then ⟨[], s⟩
  else
    if allocOk then
      let cmdCopy := strdupBytes readBytes
      if s.queue.length < COMMAND_QUEUE_CAPACITY then
        ⟨[Action.echo readBytes, Action.enqueue cmdCopy],
         ⟨s.gpioLevel, s.queue ++ [cmdCopy]⟩⟩
      else
        ⟨[Action.echo readBytes, Action.freeEntry cmdCopy, Action.logError], s⟩
    else
      ⟨[Action.echo readBytes, Action.logError], s⟩

/-- The event variants received from the UART driver event queue. -/
inductive UartEvent where
  | data (size : Nat)
  | fifoOvf
  | bufferFull
  | frameErr
  | parityErr
  | other (code : Nat)
  deriving DecidableEq, Repr

/-- One iteration of `uart_event_task`: dispatch on the event type.
Overflow and buffer-full events flush the UART input and reset the event
queue; frame/parity errors and unknown events only log. -/
def uart_event_step (s : SysState) (ev : UartEvent) (readBytes : List Nat)
    (allocOk : Bool) : DataOutcome :=
  match ev with
  | .data size => handle_uart_data s size readBytes allocOk
  | .fifoOvf => ⟨[Action.flushInput, Action.resetEventQueue], s⟩
  | .bufferFull => ⟨[Action.flushInput, Action.resetEventQueue], s⟩
  | .frameErr => ⟨[], s⟩
  | .parityErr => ⟨[], s⟩
  | .other _ => ⟨[], s⟩

/-- One iteration of `command_processor_task`: dequeue the front entry of
the relay queue (if any) and run the command dispatch on it; the entry is
freed afterwards. -/
def command_step (s : SysState) : SysState :=
  match s.queue with
  | [] => s
  | cmd :: rest => ⟨process_command s.gpioLevel cmd, rest⟩

/-- The milestones of `app_main`, in program order. -/
inductive StartupStep where
  | gpioConfigured
  | gpioSetZero
  | uartParamConfigured
  | uartPinsSet
  | driverInstalled
  | queueCreated
  | queueCreateFailedLog
  | uartTaskSpawn
  | commandTaskSpawn
  deriving DecidableEq, Repr

/-- The startup sequence of `app_main` (lines 186-226), given whether
`xQueueCreate` succeeds: configure the pin and drive it to 0, configure
the UART and install the driver, then create the relay queue; on queue
creation failure log the error and return without spawning either task,
otherwise spawn the UART event task and the command processor task. -/
def app_main (queueCreateOk : Bool) : List StartupStep :=
  [StartupStep.gpioConfigured, StartupStep.gpioSetZero,
   StartupStep.uartParamConfigured, StartupStep.uartPinsSet,
   StartupStep.driverInstalled] ++
  (if queueCreateOk then
    [StartupStep.queueCreated, StartupStep.uartTaskSpawn,
     StartupStep.commandTaskSpawn]
   else
    [StartupStep.queueCreateFailedLog])

/-- Whether an action enqueues an entry onto the relay queue. -/
def Action.isEnqueue : Action → Bool
  | .enqueue _ => true
  | _ => false

/-! ## Helper lemmas -/

theorem trim_decomp (s : List Nat) : trimTrailing s ++ trailRun s = s := by
  unfold trimTrailing trailRun
  rw [← List.reverse_append, List.takeWhile_append_dropWhile, List.reverse_reverse]

theorem takeWhile_all_self (p : Nat → Bool) (l : List Nat) :
    (l.takeWhile p).all p = true := by
  induction l with
  | nil => rfl
  | cons a t ih =>
    by_cases h : p a = true
    · simp [List.takeWhile, h, ih]
    · simp [List.takeWhile, h]

theorem head_dropWhile_false (p : Nat → Bool) :
    ∀ (l : List Nat) (c : Nat), (l.dropWhile p).head? = some c → p c = false := by
  intro l
  induction l with
  | nil =>
    intro c h
    simp [List.dropWhile] at h
  | cons a t ih =>
    intro c h
    by_cases hp : p a = true
    · simp only [List.dropWhile, hp] at h
      exact ih c h
    · have hpf : p a = false := by simpa using hp
      simp only [List.dropWhile, hpf] at h
      simp at h
      rw [← h]
      exact hpf

theorem clampRx_le_max (n : Nat) : clampRx n ≤ BUF_SIZE - 1 := by
  unfold clampRx BUF_SIZE
  split <;> omega

theorem handle_uart_data_gpio (s : SysState) (evSize : Nat) (readBytes : List Nat)
    (allocOk : Bool) :
    (handle_uart_data s evSize readBytes allocOk).state.gpioLevel = s.gpioLevel := by
  unfold handle_uart_data
  repeat' split
  all_goals rfl

theorem handle_uart_data_no_gpio_write (s : SysState) (evSize : Nat)
    (readBytes : List Nat) (allocOk : Bool) :
    ((handle_uart_data s evSize readBytes allocOk).actions.all
      (fun a => !(Action.isGpioSet a))) = true := by
  unfold handle_uart_data
  repeat' split
  all_goals rfl

/-! ## Claims -/

/-- Claim C1: for every command entry processed by the command stage, after
trimming trailing line endings: `"ON"` sets the output to 1, `"OFF"` sets
it to 0, and any other trimmed text leaves the output unchanged; in every
case the entry is dequeued. -/
theorem claim_C1 (g : Nat) (cmd : List Nat) (rest : List (List Nat)) :
    (trimTrailing cmd = strON → command_step ⟨g, cmd :: rest⟩ = ⟨1, rest⟩) ∧
    (trimTrailing cmd = strOFF → command_step ⟨g, cmd :: rest⟩ = ⟨0, rest⟩) ∧
    (trimTrailing cmd ≠ strON → trimTrailing cmd ≠ strOFF →
      command_step ⟨g, cmd :: rest⟩ = ⟨g, rest⟩) := by
  refine ⟨fun h => ?_, fun h => ?_, fun h1 h2 => ?_⟩
  · simp [command_step, process_command, h]
  · simp [command_step, process_command, h, strON, strOFF]
  · simp [command_step, process_command, h1, h2]

/-- Witness for C1: processing the entry `"ON\r\n"` from output level 0
sets the output level to 1. -/
theorem claim_C1_witness :
    command_step ⟨0, [[79, 78, 13, 10]]⟩ = ⟨1, []⟩ :=
  (claim_C1 0 [79, 78, 13, 10] []).1 (by decide)

/-- Claim C2: for a data event whose input (of length below BUF_SIZE-1)
is read in full, the first side effect of the iteration is the echo of
exactly the bytes read, and this echo lies strictly before any enqueue
onto the relay queue. -/
theorem claim_C2 (s : SysState) (input : List Nat) (allocOk : Bool)
    (_hlen : input.length < BUF_SIZE - 1) (hne : input ≠ []) :
    (handle_uart_data s input.length input allocOk).actions.head? =
      some (Action.echo input) ∧
    Action.echo input ∈
      ((handle_uart_data s input.length input allocOk).actions.takeWhile
        (fun a => !(Action.isEnqueue a))) := by
  have h0 : ¬ input.length = 0 := by simpa using hne
  unfold handle_uart_data
  rw [if_neg h0, if_neg h0]
  cases allocOk with
  | false => simp [List.takeWhile, Action.isEnqueue]
  | true =>
    by_cases hq : s.queue.length < COMMAND_QUEUE_CAPACITY
    · rw [if_pos rfl, if_pos hq]
      simp [List.takeWhile, Action.isEnqueue]
    · rw [if_pos rfl, if_neg hq]
      simp [List.takeWhile, Action.isEnqueue]

/-- Witness for C2: the input `"hi"` is echoed first, before any enqueue. -/
theorem claim_C2_witness :
    (handle_uart_data initState 2 [104, 105] true).actions.head? =
      some (Action.echo [104, 105]) ∧
    Action.echo [104, 105] ∈
      ((handle_uart_data initState 2 [104, 105] true).actions.takeWhile
        (fun a => !(Action.isEnqueue a))) :=
  claim_C2 initState [104, 105] true (by decide) (by decide)

/-- Claim C3: the trim operation removes exactly the maximal trailing run
of linefeed and carriage-return bytes: the result followed by that run is
the original string (so every earlier character is unchanged), the removed
run consists only of trim characters, and the result does not end in a
trim character. -/
theorem claim_C3 (s : List Nat) :
    trimTrailing s ++ trailRun s = s ∧
    (trailRun s).all isTrimChar = true ∧
    ((trimTrailing s).getLast?.all fun c => !(isTrimChar c)) = true := by
  refine ⟨trim_decomp s, ?_, ?_⟩
  · unfold trailRun
    rw [List.all_reverse]
    exact takeWhile_all_self _ _
  · unfold trimTrailing
    rw [List.getLast?_reverse]
    cases h : (s.reverse.dropWhile isTrimChar).head? with
    | none => rfl
    | some c =>
      have hc := head_dropWhile_false isTrimChar s.reverse c h
      simp [Option.all, hc]

/-- Claim C4: the clamp keeps the read request at most BUF_SIZE-1 bytes,
and a data event of size 0, or a read that returns zero or fewer bytes,
causes no side effect and no state change. -/
theorem claim_C4 (s : SysState) (evSize : Nat) (readBytes : List Nat)
    (allocOk : Bool) :
    clampRx evSize ≤ BUF_SIZE - 1 ∧
    (evSize = 0 → handle_uart_data s evSize readBytes allocOk = ⟨[], s⟩) ∧
    (readBytes = [] → handle_uart_data s evSize readBytes allocOk = ⟨[], s⟩) := by
  refine ⟨clampRx_le_max evSize, fun h => ?_, fun h => ?_⟩
  · unfold handle_uart_data
    rw [if_pos h]
  · unfold handle_uart_data
    by_cases hz : evSize = 0
    · rw [if_pos hz]
    · rw [if_neg hz, if_pos (by simp [h])]

/-- Witness for C4: a data event of size 0 does nothing. -/
theorem claim_C4_witness :
    handle_uart_data initState 0 [72] true = ⟨[], initState⟩ :=
  (claim_C4 initState 0 [72] true).2.1 rfl

/-- Claim C5: the relay queue capacity is exactly 5 and both task steps
preserve the bound of 5 pending entries; when the queue is already full
the iteration echoes, releases the duplicated entry, and logs the error. -/
theorem claim_C5 (s : SysState) (evSize : Nat) (readBytes : List Nat)
    (allocOk : Bool) (hq : s.queue.length ≤ COMMAND_QUEUE_CAPACITY) :
    COMMAND_QUEUE_CAPACITY = 5 ∧
    (handle_uart_data s evSize readBytes allocOk).state.queue.length ≤
      COMMAND_QUEUE_CAPACITY ∧
    (command_step s).queue.length ≤ COMMAND_QUEUE_CAPACITY ∧
    (s.queue.length = COMMAND_QUEUE_CAPACITY → readBytes ≠ [] → evSize ≠ 0 →
      (handle_uart_data s evSize readBytes true).actions =
        [Action.echo readBytes, Action.freeEntry (strdupBytes readBytes),
         Action.logError]) := by
  obtain ⟨g, q⟩ := s
  refine ⟨rfl, ?_, ?_, ?_⟩
  · unfold handle_uart_data
    repeat' split
    all_goals simp_all [List.length_append, COMMAND_QUEUE_CAPACITY]
    omega
  · cases q with
    | nil => simp [command_step, COMMAND_QUEUE_CAPACITY]
    | cons c rest =>
      simp only [command_step]
      simp [COMMAND_QUEUE_CAPACITY] at hq ⊢
      omega
  · intro hfull hne hsz
    have h0 : ¬ readBytes.length = 0 := by simpa using hne
    have hlt : ¬ (SysState.mk g q).queue.length < COMMAND_QUEUE_CAPACITY := by
      simp only [hfull]
      exact lt_irrefl _
    unfold handle_uart_data
    rw [if_neg hsz, if_neg h0, if_pos rfl, if_neg hlt]

/-- Witness for C5: with five entries already pending, the sixth enqueue
attempt releases the duplicated entry after the echo and logs the error. -/
theorem claim_C5_witness :
    (handle_uart_data ⟨0, [[65], [65], [65], [65], [65]]⟩ 1 [66] true).actions =
      [Action.echo [66], Action.freeEntry (strdupBytes [66]), Action.logError] :=
  (claim_C5 ⟨0, [[65], [65], [65], [65], [65]]⟩ 1 [66] true
    (by decide)).2.2.2 (by decide) (by decide) (by decide)

/-- Claim C6: command processing is idempotent: an entry trimming to
`"ON"` drives the output to 1 whether processed once or twice, from any
starting level; symmetrically an entry trimming to `"OFF"` drives it
to 0. -/
theorem claim_C6 (g : Nat) (cmd : List Nat) :
    (trimTrailing cmd = strON →
      process_command g cmd = 1 ∧
      process_command (process_command g cmd) cmd = 1) ∧
    (trimTrailing cmd = strOFF →
      process_command g cmd = 0 ∧
      process_command (process_command g cmd) cmd = 0) := by
  constructor
  · intro h
    constructor <;> simp [process_command, h]
  · intro h
    constructor <;> simp [process_command, h, strON, strOFF]

/-- Witness for C6: processing `"ON\n"` once or twice from level 0 ends
at level 1 both ways. -/
theorem claim_C6_witness :
    process_command 0 [79, 78, 10] = 1 ∧
    process_command (process_command 0 [79, 78, 10]) [79, 78, 10] = 1 :=
  (claim_C6 0 [79, 78, 10]).1 (by decide)

/-- Claim C7: the output starts at level 0 (driven low during `app_main`
before either task is spawned), and the receive/echo stage never changes
the output level nor performs any GPIO write: only the command stage
mutates the output state. -/
theorem claim_C7 (s : SysState) (ev : UartEvent) (readBytes : List Nat)
    (allocOk : Bool) :
    initState.gpioLevel = 0 ∧
    StartupStep.gpioSetZero ∈
      (app_main true).takeWhile (fun st => st != StartupStep.uartTaskSpawn) ∧
    (uart_event_step s ev readBytes allocOk).state.gpioLevel = s.gpioLevel ∧
    ((uart_event_step s ev readBytes allocOk).actions.all
      (fun a => !(Action.isGpioSet a))) = true := by
  refine ⟨rfl, by decide, ?_, ?_⟩
  · cases ev with
    | data size => exact handle_uart_data_gpio s size readBytes allocOk
    | fifoOvf => rfl
    | bufferFull => rfl
    | frameErr => rfl
    | parityErr => rfl
    | other code => rfl
  · cases ev with
    | data size => exact handle_uart_data_no_gpio_write s size readBytes allocOk
    | fifoOvf => rfl
    | bufferFull => rfl
    | frameErr => rfl
    | parityErr => rfl
    | other code => rfl

/-- Claim C8: when relay queue creation fails, `app_main` logs the error
and returns without spawning either task. -/
theorem claim_C8 :
    StartupStep.queueCreateFailedLog ∈ app_main false ∧
    StartupStep.uartTaskSpawn ∉ app_main false ∧
    StartupStep.commandTaskSpawn ∉ app_main false := by
  decide

/-- Claim C9: the echo writes back all bytes read, NULs included, while
the entry forwarded to the command stage is only the prefix up to the
first NUL byte; an input whose first byte is NUL yields the empty entry,
which is treated as unrecognized and leaves the output unchanged. -/
theorem claim_C9 (g : Nat) (s : SysState) (evSize : Nat) (readBytes : List Nat)
    (hne : readBytes ≠ []) (hsz : evSize ≠ 0)
    (hq : s.queue.length < COMMAND_QUEUE_CAPACITY) :
    (handle_uart_data s evSize readBytes true).actions.head? =
      some (Action.echo readBytes) ∧
    (handle_uart_data s evSize readBytes true).state.queue =
      s.queue ++ [readBytes.takeWhile (fun c => c != 0)] ∧
    (0 :: readBytes).takeWhile (fun c => c != 0) = [] ∧
    process_command g [] = g := by
  have h0 : ¬ readBytes.length = 0 := by simpa using hne
  refine ⟨?_, ?_, ?_, ?_⟩
  · unfold handle_uart_data
    rw [if_neg hsz, if_neg h0, if_pos rfl, if_pos hq]
    rfl
  · unfold handle_uart_data
    rw [if_neg hsz, if_neg h0, if_pos rfl, if_pos hq]
    rfl
  · rfl
  · rfl

/-- Witness for C9: reading `[65, 0, 66]` echoes all three bytes but
forwards only `[65]`, the prefix before the NUL. -/
theorem claim_C9_witness :
    (handle_uart_data initState 3 [65, 0, 66] true).actions.head? =
      some (Action.echo [65, 0, 66]) ∧
    (handle_uart_data initState 3 [65, 0, 66] true).state.queue =
      initState.queue ++ [List.takeWhile (fun c => c != 0) [65, 0, 66]] ∧
    (0 :: [65, 0, 66]).takeWhile (fun c => c != 0) = [] ∧
    process_command 7 [] = 7 :=
  claim_C9 7 initState 3 [65, 0, 66] (by decide) (by decide) (by decide)

/-- Claim C10: buffer accesses stay in bounds: a read bounded by the
clamped size has length below BUF_SIZE (so the NUL store at index `len`
is inside the buffer), and the trim never reaches before the start of the
buffer: its result is an unchanged initial segment of the entry, no
longer than the entry, and the empty entry is left unchanged. -/
theorem claim_C10 (evSize : Nat) (readBytes : List Nat) (s : List Nat)
    (hread : readBytes.length ≤ clampRx evSize) :
    readBytes.length < BUF_SIZE ∧
    trimTrailing s ++ trailRun s = s ∧
    (trimTrailing s).length ≤ s.length ∧
    trimTrailing [] = ([] : List Nat) := by
  refine ⟨?_, trim_decomp s, ?_, rfl⟩
  · have h := clampRx_le_max evSize
    have hb : BUF_SIZE - 1 < BUF_SIZE := by
      unfold BUF_SIZE
      omega
    omega
  · have h := congrArg List.length (trim_decomp s)
    rw [List.length_append] at h
    omega

/-- Witness for C10: a 3-byte read against an event of size 5 fits the
buffer, and trimming `"A\r"` stays within the entry. -/
theorem claim_C10_witness :
    ([1, 2, 3] : List Nat).length < BUF_SIZE ∧
    trimTrailing [65, 13] ++ trailRun [65, 13] = [65, 13] ∧
    (trimTrailing [65, 13]).length ≤ ([65, 13] : List Nat).length ∧
    trimTrailing [] = ([] : List Nat) :=
  claim_C10 5 [1, 2, 3] [65, 13] (by decide)

end UartEcho
